import Mathlib

/-!
Shallow embedding of the navigation / session state machine of the NymView
browser (`src/mixnet_browser.rs`).  Rust `String` values are modelled as
`List Char`; `Instant` timestamps as `Nat` (milliseconds); the global
outbound queue (`GUI_TO_MIXNET_SENDER`) as a `ChanState` field of the
browser state; an enqueued `BrowserMessage::SendRequest` is recorded in the
ghost log `sent`.  UI rendering, the tokio runtime and the mixnet client are
outside the embedding; every state-mutating method of `NymMixnetBrowser`
that the claims touch is translated function-by-function below.
-/

namespace NymView

/-- Unicode White_Space test, as Rust's `char::is_whitespace`. -/
def rustIsWhitespace (c : Char) : Bool :=
  (0x9 ≤ c.val && c.val ≤ 0xD) || c.val = 0x20 || c.val = 0x85 ||
  c.val = 0xA0 || c.val = 0x1680 || (0x2000 ≤ c.val && c.val ≤ 0x200A) ||
  c.val = 0x2028 || c.val = 0x2029 || c.val = 0x202F || c.val = 0x205F ||
  c.val = 0x3000

/-- Rust `str::trim`: strip leading and trailing whitespace. -/
def trim (s : List Char) : List Char :=
  ((s.dropWhile rustIsWhitespace).reverse.dropWhile rustIsWhitespace).reverse

/-- Rust `str::find(pattern)`: index of the first occurrence of `pat` in `s`. -/
def findSub (pat : List Char) : List Char → Option Nat
  | [] => if pat.isPrefixOf ([] : List Char) then some 0 else none
  | c :: t =>
    if pat.isPrefixOf (c :: t) then some 0
    else (findSub pat t).map (· + 1)

/-- The characters that terminate a link match in `extract_nym_links`
(whitespace or a closing bracket / quote character). -/
def isLinkTerminator (c : Char) : Bool :=
  rustIsWhitespace c || c = ')' || c = ']' || c = '>' || c = '"' ||
  c = Char.ofNat 39

/-- One entry of the browsing history (`HistoryEntry`). -/
structure HistoryEntry where
  server : List Char
  page : List Char
  content : List Char
  timestamp : Nat
deriving DecidableEq, Repr

/-- State of the global outbound queue: no sender installed yet
(`GUI_TO_MIXNET_SENDER` empty), a sender whose `send` fails with error
text `e` (closed channel), or a working sender. -/
inductive ChanState where
  | noSender
  | sendFails (e : List Char)
  | ready
deriving DecidableEq, Repr

/-- A request enqueued on the outbound queue
(`BrowserMessage::SendRequest`). -/
structure SentRequest where
  recipient : List Char
  message : List Char
deriving DecidableEq, Repr

/-- The fields of `NymMixnetBrowser` relevant to navigation, plus the
modelled outbound queue `chan` and the ghost log `sent` of enqueued
requests. -/
structure Browser where
  address_bar : List Char
  current_content : List Char
  loading : Bool
  page_loading : Bool
  error : Option (List Char)
  connection_status : List Char
  server_address : List Char
  client_address : List Char
  history : List HistoryEntry
  current_history_index : Nat
  page_load_start_time : Option Nat
  chan : ChanState
  sent : List SentRequest
deriving DecidableEq, Repr

/-- The initial state built by `NymMixnetBrowser::new()`. -/
def Browser.new : Browser :=
  { address_bar := []
    current_content := []
    loading := true
    page_loading := false
    error := none
    connection_status := "Connecting to Mixnet...".toList
    server_address := []
    client_address := []
    history := []
    current_history_index := 0
    page_load_start_time := none
    chan := ChanState.noSender
    sent := [] }

/-- Rust `send_request`: validates server and client addresses, builds the
request line `GET <path> FROM <address>` and enqueues it on the outbound
queue; returns the enqueued request or the error string. -/
def send_request (st : Browser) (request_path : List Char) :
    Except (List Char) SentRequest :=
  let recipient := trim st.server_address
  if recipient = [] then
    Except.error ("No server address specified".toList)
  else
    let my_address := trim st.client_address
    if my_address = [] then
      Except.error ("Not connected yet - waiting for client address".toList)
    else
      let request :=
        "GET ".toList ++ request_path ++ " FROM ".toList ++ my_address
      match st.chan with
      | ChanState.ready => Except.ok ⟨recipient, request⟩
      | ChanState.sendFails e => Except.error ("Send error: ".toList ++ e)
      | ChanState.noSender => Except.error ("Not connected to Mixnet".toList)

/-- Rust `parse_nym_url`: strip the `nym://` scheme, split at the first
`/` into server and page; no scheme yields `none`. -/
def parse_nym_url (url : List Char) : Option (List Char × List Char) :=
  if ("nym://".toList).isPrefixOf url then
    let without_protocol := url.drop 6
    match without_protocol.findIdx? (fun c => c = '/') with
    | some slash_pos =>
        some (without_protocol.take slash_pos,
              without_protocol.drop (slash_pos + 1))
    | none => some (without_protocol, [])
  else
    none

/-- Rust `parse_and_set_url`. -/
def parse_and_set_url (st : Browser) (url : List Char) : Browser :=
  match parse_nym_url url with
  | some (server, page) =>
      { st with server_address := trim server,
                address_bar := if page = [] then [] else page }
  | none =>
      { st with address_bar := trim url }

/-- Rust `add_to_history`: truncate the abandoned forward branch, append a
snapshot of the current page and move the cursor to the new tail. -/
def add_to_history (now : Nat) (st : Browser) : Browser :=
  let history :=
    if st.current_history_index < st.history.length - 1 then
      st.history.take (st.current_history_index + 1)
    else
      st.history
  let entry : HistoryEntry :=
    ⟨st.server_address, st.address_bar, st.current_content, now⟩
  let history := history ++ [entry]
  { st with history := history,
            current_history_index := history.length - 1 }

/-- Rust `navigate_to`: commits the history entry first, then dispatches;
on dispatch failure stores the error, on success records the request and
updates the address bar. -/
def navigate_to (now : Nat) (st : Browser) (path : List Char) : Browser :=
  let st := add_to_history now st
  let st := { st with page_loading := true, page_load_start_time := some now }
  let request_path := if path.head? = some '/' then path else '/' :: path
  match send_request st request_path with
  | Except.error e =>
      { st with error := some e, page_loading := false,
                page_load_start_time := none }
  | Except.ok req =>
      { st with sent := st.sent ++ [req], address_bar := path }

/-- Rust `handle_navigation` (the Go button / Enter in the address bar). -/
def handle_navigation (now : Nat) (st : Browser) : Browser :=
  let address := st.address_bar
  let st := parse_and_set_url st address
  let st := { st with page_loading := true, page_load_start_time := some now }
  let path :=
    if st.address_bar = [] then ['/']
    else if st.address_bar.head? = some '/' then st.address_bar
    else '/' :: st.address_bar
  match send_request st path with
  | Except.ok req => add_to_history now { st with sent := st.sent ++ [req] }
  | Except.error e =>
      { st with error := some e, page_loading := false,
                page_load_start_time := none }

/-- Rust `handle_link_click`: `nym://` hrefs are parsed and dispatched as
external (full mix address) or local links; any other href is treated as a
relative path and routed through `navigate_to`. -/
def handle_link_click (now : Nat) (st : Browser) (href : List Char) :
    Browser :=
  if ("nym://".toList).isPrefixOf href then
    match parse_nym_url href with
    | some (server, page) =>
      if server.contains '.' && server.contains '@' then
        let old_server := st.server_address
        let st := { st with server_address := server }
        let path := if page = [] then ['/'] else '/' :: page
        let st := { st with address_bar := if page = [] then [] else page }
        let st :=
          { st with page_loading := true, page_load_start_time := some now }
        match send_request st path with
        | Except.error e =>
            { st with server_address := old_server, error := some e,
                      page_loading := false, page_load_start_time := none }
        | Except.ok req =>
            add_to_history now { st with sent := st.sent ++ [req] }
      else
        if st.server_address ≠ [] then
          let path :=
            if page = [] then '/' :: server
            else '/' :: (server ++ '/' :: page)
          let st :=
            { st with page_loading := true, page_load_start_time := some now }
          match send_request st path with
          | Except.error e =>
              { st with error := some e, page_loading := false,
                        page_load_start_time := none }
          | Except.ok req =>
              add_to_history now { st with sent := st.sent ++ [req] }
        else
          st
    | none => st
  else if href.head? = some '/' then
    navigate_to now st (href.drop 1)
  else
    navigate_to now st href

/-- Loop body of Rust `extract_nym_links`, with explicit fuel (one unit per
loop iteration; each iteration consumes at least one character of the
remaining text, so `content.length + 1` units always suffice). -/
def extractAux : Nat → List Char → List (List Char) → List (List Char)
  | 0, _, links => links
  | fuel + 1, content, links =>
    match findSub ("nym://".toList) content with
    | none => links
    | some start =>
      let remaining := content.drop start
      let link := remaining.takeWhile (fun c => !isLinkTerminator c)
      let links' :=
        if !link.isEmpty && !links.contains link then links ++ [link]
        else links
      extractAux fuel (remaining.drop link.length) links'

/-- Rust `extract_nym_links`: every `nym://` occurrence extended to the
next terminator character, deduplicated in first-seen order. -/
def extract_nym_links (content : List Char) : List (List Char) :=
  extractAux (content.length + 1) content []

/-- Rust `handle_server_message`: strip a leading literal `"OK\n"` marker,
otherwise keep the payload verbatim; clear error, loading flag and timer. -/
def handle_server_message (st : Browser) (content : List Char) : Browser :=
  let st :=
    if ("OK\n".toList).isPrefixOf content then
      { st with current_content := content.drop 3 }
    else
      { st with current_content := content }
  { st with error := none, page_loading := false,
            page_load_start_time := none }

/-- Rust `go_back`. -/
def go_back (st : Browser) : Browser :=
  if st.current_history_index > 0 then
    let idx := st.current_history_index - 1
    match st.history[idx]? with
    | some entry =>
        { st with current_history_index := idx,
                  server_address := entry.server,
                  address_bar := entry.page,
                  current_content := entry.content,
                  error := none, page_loading := false,
                  page_load_start_time := none }
    | none => { st with current_history_index := idx }
  else
    st

/-- Rust `go_forward`. -/
def go_forward (st : Browser) : Browser :=
  if st.current_history_index < st.history.length - 1 then
    let idx := st.current_history_index + 1
    match st.history[idx]? with
    | some entry =>
        { st with current_history_index := idx,
                  server_address := entry.server,
                  address_bar := entry.page,
                  current_content := entry.content,
                  error := none, page_loading := false,
                  page_load_start_time := none }
    | none => { st with current_history_index := idx }
  else
    st

/-- The page-load watchdog at the top of Rust `show` (the per-frame tick):
if a load is in flight and strictly more than 30 seconds (30000 ms) have
elapsed, set the timeout error and clear the loading flag and timer. -/
def check_page_load_timeout (now : Nat) (st : Browser) : Browser :=
  if st.page_loading then
    match st.page_load_start_time with
    | some start_time =>
        if 30000 < now - start_time then
          { st with
              error := some ("Page load timeout - server not responding".toList),
              page_loading := false, page_load_start_time := none }
        else st
    | none => st
  else
    st

/-! Helper lemmas. -/

/-- Appending an element always changes a list. -/
lemma append_singleton_ne {α : Type} (l : List α) (a : α) : l ++ [a] ≠ l := by
  intro h
  have := congrArg List.length h
  simp at this

/-- The history produced by `add_to_history`: everything after the cursor
is discarded and the snapshot of the current page is appended. -/
lemma add_to_history_history (now : Nat) (st : Browser) :
    (add_to_history now st).history =
      st.history.take (st.current_history_index + 1) ++
        [⟨st.server_address, st.address_bar, st.current_content, now⟩] := by
  unfold add_to_history
  by_cases h : st.current_history_index < st.history.length - 1
  · simp [h]
  · have hle : st.history.length ≤ st.current_history_index + 1 := by omega
    simp [h, List.take_of_length_le hle]

/-- After `add_to_history` the cursor sits at the new tail. -/
lemma add_to_history_index (now : Nat) (st : Browser) :
    (add_to_history now st).current_history_index =
      (add_to_history now st).history.length - 1 := by
  unfold add_to_history
  split <;> rfl

/-- Fields of the browser state that `parse_and_set_url` never touches. -/
lemma parse_and_set_url_frame (st : Browser) (url : List Char) :
    (parse_and_set_url st url).error = st.error ∧
    (parse_and_set_url st url).history = st.history ∧
    (parse_and_set_url st url).current_history_index =
      st.current_history_index ∧
    (parse_and_set_url st url).sent = st.sent := by
  unfold parse_and_set_url
  cases h : parse_nym_url url with
  | none => exact ⟨rfl, rfl, rfl, rfl⟩
  | some v => cases v with
    | mk server page => exact ⟨rfl, rfl, rfl, rfl⟩

/-- A dispatch through `handle_navigation` either succeeds — exactly one
request is enqueued and the error field is untouched — or fails — nothing
is enqueued, history and cursor are untouched, and the error field holds
the failure reason. -/
lemma handle_navigation_cases (now : Nat) (st : Browser) :
    (∃ req, (handle_navigation now st).sent = st.sent ++ [req] ∧
            (handle_navigation now st).error = st.error) ∨
    ((handle_navigation now st).sent = st.sent ∧
     (handle_navigation now st).history = st.history ∧
     (handle_navigation now st).current_history_index =
       st.current_history_index ∧
     ∃ e, (handle_navigation now st).error = some e) := by
  obtain ⟨he, hh, hi, hs⟩ := parse_and_set_url_frame st st.address_bar
  unfold handle_navigation
  dsimp only
  split
  · rename_i req _
    left
    refine ⟨req, ?_, ?_⟩
    · show (parse_and_set_url st st.address_bar).sent ++ [req] = st.sent ++ [req]
      rw [hs]
    · show (parse_and_set_url st st.address_bar).error = st.error
      exact he
  · rename_i e _
    right
    exact ⟨hs, hh, hi, e, rfl⟩

/-- `navigate_to` always leaves behind the history that `add_to_history`
commits, dispatch outcome notwithstanding. -/
lemma navigate_to_history (now : Nat) (st : Browser) (path : List Char) :
    (navigate_to now st path).history = (add_to_history now st).history := by
  unfold navigate_to
  dsimp only
  split <;> rfl

/-- A dispatch through `navigate_to` either succeeds, enqueueing exactly
one request with the error field untouched, or fails, enqueueing nothing
and storing the failure reason. -/
lemma navigate_to_cases (now : Nat) (st : Browser) (path : List Char) :
    (∃ req, (navigate_to now st path).sent = st.sent ++ [req] ∧
            (navigate_to now st path).error = st.error) ∨
    ((navigate_to now st path).sent = st.sent ∧
     ∃ e, (navigate_to now st path).error = some e) := by
  unfold navigate_to
  dsimp only
  split
  · rename_i e _
    right
    exact ⟨rfl, e, rfl⟩
  · rename_i req _
    left
    exact ⟨req, rfl, rfl⟩

/-- A `nym://` link click that enqueues nothing (failed or refused
dispatch) leaves history and cursor untouched. -/
lemma handle_link_click_nym_cases (now : Nat) (st : Browser)
    (href : List Char) (hn : ("nym://".toList).isPrefixOf href = true) :
    (handle_link_click now st href).sent = st.sent →
    (handle_link_click now st href).history = st.history ∧
    (handle_link_click now st href).current_history_index =
      st.current_history_index := by
  unfold handle_link_click
  rw [if_pos hn]
  split
  · dsimp only
    split
    · split
      · intro _
        exact ⟨rfl, rfl⟩
      · rename_i req _
        intro hsent
        exact absurd (show st.sent ++ [req] = st.sent from hsent)
          (append_singleton_ne _ _)
    · split
      · split
        · intro _
          exact ⟨rfl, rfl⟩
        · rename_i req _
          intro hsent
          exact absurd (show st.sent ++ [req] = st.sent from hsent)
            (append_singleton_ne _ _)
      · intro _
        exact ⟨rfl, rfl⟩
  · intro _
    exact ⟨rfl, rfl⟩

/-! Concrete states used in witnesses and counterexamples. -/

/-- A connected browser: server and client addresses known, outbound
queue ready. -/
def stConn : Browser :=
  { Browser.new with
      server_address := "srv".toList
      client_address := "cli".toList
      chan := ChanState.ready }

/-- History entry A of the `[A,B,C]` scenario. -/
def entA : HistoryEntry := ⟨"s".toList, "a".toList, "ca".toList, 1⟩

/-- History entry B of the `[A,B,C]` scenario. -/
def entB : HistoryEntry := ⟨"s".toList, "b".toList, "cb".toList, 2⟩

/-- History entry C of the `[A,B,C]` scenario. -/
def entC : HistoryEntry := ⟨"s".toList, "c".toList, "cc".toList, 3⟩

/-- The entry D committed by navigating to `page2` from `stABC` at time 5:
a snapshot of the page displayed at commit time. -/
def entD : HistoryEntry := ⟨"srv".toList, "page2".toList, "cb".toList, 5⟩

/-- Connected browser with history `[A,B,C]`, cursor on B (index 1), about
to navigate to `page2`. -/
def stABC : Browser :=
  { stConn with
      history := [entA, entB, entC]
      current_history_index := 1
      address_bar := "page2".toList
      current_content := "cb".toList }

/-! Claim theorems. -/

/-- C5: a successful navigate from cursor index `i` truncates every
history entry after index `i`, appends exactly one new entry, and leaves
the cursor at the new last index; from the tail the length grows by
exactly one; concretely, navigating from `[A,B,C]` with the cursor at
index 1 yields `[A,B,D]` with the cursor at index 2. -/
theorem history_truncate_append_spec (now : Nat) (st : Browser) :
    (add_to_history now st).history =
      st.history.take (st.current_history_index + 1) ++
        [⟨st.server_address, st.address_bar, st.current_content, now⟩] ∧
    (add_to_history now st).current_history_index =
      (add_to_history now st).history.length - 1 ∧
    (st.current_history_index = st.history.length - 1 →
      (add_to_history now st).history.length = st.history.length + 1) ∧
    (handle_navigation 5 stABC).history = [entA, entB, entD] ∧
    (handle_navigation 5 stABC).current_history_index = 2 := by
  refine ⟨add_to_history_history now st, add_to_history_index now st, ?_, ?_, ?_⟩
  · intro h
    rw [add_to_history_history now st]
    by_cases hn : st.history.length = 0
    · simp [hn]
    · rw [List.take_of_length_le (by omega)]
      simp
  · decide
  · decide

/-- C5 witness: the tail-navigation conclusion instantiated at `stConn`
(history empty, cursor 0, so the cursor is at the tail). -/
theorem history_truncate_append_spec_witness :
    (add_to_history 7 stConn).history.length = stConn.history.length + 1 :=
  (history_truncate_append_spec 7 stConn).2.2.1 (by decide)

/-- C6: when a page load is in flight and strictly more than 30 seconds
(modelled in milliseconds) have elapsed since its start, the per-frame
tick clears the loading flag and the start timestamp and stores the
timeout message in the error field; the outbound queue and request log —
the in-flight network operation — are untouched, as is everything else. -/
theorem page_load_timeout_spec (st : Browser) (now start_time : Nat)
    (hl : st.page_loading = true)
    (ht : st.page_load_start_time = some start_time)
    (he : 30000 < now - start_time) :
    (check_page_load_timeout now st).page_loading = false ∧
    (check_page_load_timeout now st).page_load_start_time = none ∧
    (check_page_load_timeout now st).error =
      some ("Page load timeout - server not responding".toList) ∧
    (check_page_load_timeout now st).sent = st.sent ∧
    (check_page_load_timeout now st).chan = st.chan ∧
    (check_page_load_timeout now st).history = st.history ∧
    (check_page_load_timeout now st).current_history_index =
      st.current_history_index ∧
    (check_page_load_timeout now st).current_content = st.current_content ∧
    (check_page_load_timeout now st).server_address = st.server_address ∧
    (check_page_load_timeout now st).address_bar = st.address_bar := by
  unfold check_page_load_timeout
  rw [hl, ht]
  simp [he]

/-- C6 witness: a load started at 100 ms, ticked at 30101 ms. -/
theorem page_load_timeout_spec_witness :
    (check_page_load_timeout 30101
        { stConn with page_loading := true,
                      page_load_start_time := some 100 }).page_loading
      = false ∧
    (check_page_load_timeout 30101
        { stConn with page_loading := true,
                      page_load_start_time := some 100 }).error =
      some ("Page load timeout - server not responding".toList) := by
  have h := page_load_timeout_spec
    { stConn with page_loading := true, page_load_start_time := some 100 }
    30101 100 (by decide) (by decide) (by decide)
  exact ⟨h.1, h.2.2.1⟩

/-- C2 (amended): for address-bar navigation and for `nym://` link clicks,
a failed dispatch (nothing enqueued) leaves `history` and
`current_history_index` exactly as they were, and for address-bar
navigation the failure reason is stored in the error field; but a link
click routed through `navigate_to` (relative or absolute path hrefs)
commits the history entry before dispatching, so a failed dispatch there
still truncates-and-appends one entry, though the failure reason is still
stored in the error field. -/
theorem dispatch_failure_history (now : Nat) (st : Browser)
    (path href : List Char)
    (hn : ("nym://".toList).isPrefixOf href = true) :
    ((handle_navigation now st).sent = st.sent →
      (handle_navigation now st).history = st.history ∧
      (handle_navigation now st).current_history_index =
        st.current_history_index ∧
      ∃ e, (handle_navigation now st).error = some e) ∧
    ((handle_link_click now st href).sent = st.sent →
      (handle_link_click now st href).history = st.history ∧
      (handle_link_click now st href).current_history_index =
        st.current_history_index) ∧
    ((navigate_to now st path).history =
      st.history.take (st.current_history_index + 1) ++
        [⟨st.server_address, st.address_bar, st.current_content, now⟩]) ∧
    ((navigate_to now st path).sent = st.sent →
      ∃ e, (navigate_to now st path).error = some e) := by
  refine ⟨?_, handle_link_click_nym_cases now st href hn, ?_, ?_⟩
  · intro hsent
    rcases handle_navigation_cases now st with ⟨req, hs, _⟩ | ⟨_, hh, hi, he⟩
    · exact absurd (hs.symm.trans hsent) (append_singleton_ne _ _)
    · exact ⟨hh, hi, he⟩
  · rw [navigate_to_history, add_to_history_history]
  · intro hsent
    rcases navigate_to_cases now st path with ⟨req, hs, _⟩ | ⟨_, he⟩
    · exact absurd (hs.symm.trans hsent) (append_singleton_ne _ _)
    · exact he

/-- C2 counterexample: a link click on the relative href `page` in the
fresh (not yet connected) browser fails to dispatch — nothing is enqueued
and the error field holds the failure reason — yet the history list has
changed (an entry was appended), contradicting the claim that every failed
navigation attempt leaves history untouched. -/
theorem dispatch_failure_history_counterexample :
    (handle_link_click 0 Browser.new ("page".toList)).sent =
      Browser.new.sent ∧
    (handle_link_click 0 Browser.new ("page".toList)).error =
      some ("No server address specified".toList) ∧
    (handle_link_click 0 Browser.new ("page".toList)).history ≠
      Browser.new.history := by decide

/-- C2 witness: the failed address-bar navigation and the failed `nym://`
link click on the fresh browser leave history untouched. -/
theorem dispatch_failure_history_witness :
    (handle_navigation 0 Browser.new).history = Browser.new.history ∧
    (∃ e, (handle_navigation 0 Browser.new).error = some e) ∧
    (handle_link_click 0 Browser.new ("nym://a".toList)).history =
      Browser.new.history := by
  have h := dispatch_failure_history 0 Browser.new [] ("nym://a".toList)
    (by decide)
  exact ⟨(h.1 (by decide)).1, (h.1 (by decide)).2.2, (h.2.1 (by decide)).1⟩

/-- A connected browser that is showing an old error message. -/
def stErrNav : Browser :=
  { stConn with
      error := some ("old error".toList)
      address_bar := "p".toList }

/-- C3 (amended): the error field is cleared by every content reception
(`handle_server_message` always resets it to none), but a fresh navigation
attempt does not clear it: a navigation whose dispatch succeeds leaves the
error field exactly as it was (a failed dispatch overwrites it with the
new failure reason). -/
theorem error_field_clearing (st : Browser) (content : List Char)
    (now : Nat) :
    (handle_server_message st content).error = none ∧
    ((handle_navigation now st).sent ≠ st.sent →
      (handle_navigation now st).error = st.error) := by
  constructor
  · rfl
  · intro hne
    rcases handle_navigation_cases now st with ⟨_, _, he⟩ | ⟨hs, _⟩
    · exact he
    · exact absurd hs hne

/-- C3 counterexample: in a connected browser showing the error
`old error`, an address-bar navigation succeeds (a request is enqueued),
yet the error field still holds `old error` instead of none. -/
theorem error_field_clearing_counterexample :
    (handle_navigation 0 stErrNav).sent ≠ stErrNav.sent ∧
    (handle_navigation 0 stErrNav).error = some ("old error".toList) := by
  decide

/-- C3 witness: content reception clears the error, and the successful
navigation from `stErrNav` leaves the error field unchanged. -/
theorem error_field_clearing_witness :
    (handle_server_message stConn ("x".toList)).error = none ∧
    (handle_navigation 0 stErrNav).error = stErrNav.error :=
  ⟨(error_field_clearing stConn ("x".toList) 0).1,
   (error_field_clearing stErrNav [] 0).2 (by decide)⟩

/-- On a connected state (non-blank server and client addresses, working
outbound queue) `send_request` enqueues the request line
`GET <path> FROM <client>` addressed to the trimmed server. -/
lemma send_request_ready (st : Browser) (path : List Char)
    (h1 : trim st.server_address ≠ []) (h2 : trim st.client_address ≠ [])
    (h3 : st.chan = ChanState.ready) :
    send_request st path = Except.ok
      ⟨trim st.server_address,
       "GET ".toList ++ path ++ " FROM ".toList ++
         trim st.client_address⟩ := by
  unfold send_request
  dsimp only
  rw [if_neg h1, if_neg h2, h3]

/-- On a connected state, `navigate_to` with a path lacking a leading
slash enqueues `GET /<path> ...`, leaves the error field untouched and
puts the path into the address bar. -/
lemma navigate_to_connected (now : Nat) (st : Browser) (path : List Char)
    (h1 : trim st.server_address ≠ []) (h2 : trim st.client_address ≠ [])
    (h3 : st.chan = ChanState.ready) (hp : path.head? ≠ some '/') :
    (navigate_to now st path).sent =
      st.sent ++ [⟨trim st.server_address,
        "GET ".toList ++ '/' :: path ++ " FROM ".toList ++
          trim st.client_address⟩] ∧
    (navigate_to now st path).error = st.error ∧
    (navigate_to now st path).address_bar = path := by
  unfold navigate_to
  dsimp only
  rw [if_neg hp]
  rw [send_request_ready { add_to_history now st with
        page_loading := true, page_load_start_time := some now }
      ('/' :: path) (by exact h1) (by exact h2) (by exact h3)]
  exact ⟨rfl, rfl, rfl⟩

/-- C1 (amended): there is no UnsupportedScheme classification in the
code: `handle_link_click` on an href that neither uses the `nym://`
scheme nor starts with `/` (e.g. `http://example.com`) treats it as a
relative path and routes it through `navigate_to`, which commits a
history entry and — whenever the browser is connected — enqueues the
network request `GET /<href> FROM <client>`; no error is set (the error
field is left unchanged). -/
theorem unsupported_scheme_link_dispatch (now : Nat) (st : Browser)
    (href : List Char)
    (hn : ("nym://".toList).isPrefixOf href = false)
    (hp : href.head? ≠ some '/')
    (h1 : trim st.server_address ≠ []) (h2 : trim st.client_address ≠ [])
    (h3 : st.chan = ChanState.ready) :
    (handle_link_click now st href).sent =
      st.sent ++ [⟨trim st.server_address,
        "GET ".toList ++ '/' :: href ++ " FROM ".toList ++
          trim st.client_address⟩] ∧
    (handle_link_click now st href).error = st.error ∧
    (handle_link_click now st href).history =
      (add_to_history now st).history := by
  have hred : handle_link_click now st href = navigate_to now st href := by
    unfold handle_link_click
    rw [hn, if_neg (by simp), if_neg hp]
  rw [hred]
  obtain ⟨ha, hb, _⟩ := navigate_to_connected now st href h1 h2 h3 hp
  exact ⟨ha, hb, navigate_to_history now st href⟩

/-- C1 counterexample: a click on `http://example.com` in the connected
browser `stConn` does reach the network dispatch path — a request is
enqueued — and no error is set, contradicting both halves of the claim. -/
theorem unsupported_scheme_counterexample :
    (handle_link_click 0 stConn ("http://example.com".toList)).sent ≠
      stConn.sent ∧
    (handle_link_click 0 stConn ("http://example.com".toList)).error =
      none := by decide

/-- C1 witness: the amended theorem instantiated at `stConn` and the href
`http://example.com`. -/
theorem unsupported_scheme_witness :
    (handle_link_click 0 stConn ("http://example.com".toList)).sent =
      stConn.sent ++ [⟨trim stConn.server_address,
        "GET ".toList ++ '/' :: "http://example.com".toList ++
          " FROM ".toList ++ trim stConn.client_address⟩] ∧
    (handle_link_click 0 stConn ("http://example.com".toList)).error =
      stConn.error := by
  have h := unsupported_scheme_link_dispatch 0 stConn
    ("http://example.com".toList) (by decide) (by decide) (by decide)
    (by decide) (by decide)
  exact ⟨h.1, h.2.1⟩

/-- First entry of the back/forward scenario. -/
def entP : HistoryEntry := ⟨"s0".toList, "p0".toList, "c0".toList, 0⟩

/-- Second entry of the back/forward scenario. -/
def entQ : HistoryEntry := ⟨"s1".toList, "p1".toList, "c1".toList, 0⟩

/-- A browser on entry `entQ` (cursor 1) whose live content `LIVE` has
diverged from the stored snapshot `c1` — as happens whenever content
arrives after the history entry was committed. -/
def stBackFwd : Browser :=
  { Browser.new with
      history := [entP, entQ]
      current_history_index := 1
      current_content := "LIVE".toList
      server_address := "s1".toList
      address_bar := "p1".toList }

/-- C4 (amended): when go_back is enabled (cursor > 0 and valid),
`go_back()` then `go_forward()` sets `current_content`, `server_address`
and `address_bar` to the values stored in the history entry at the
pre-back cursor index — which equal the pre-back live values exactly when
those fields agreed with the snapshot — returns the cursor to its
pre-back position, and neither call touches the history or enqueues any
network request. -/
theorem back_forward_restores_snapshot (st : Browser)
    (entry : HistoryEntry)
    (hpos : 0 < st.current_history_index)
    (hget : st.history[st.current_history_index]? = some entry) :
    (go_forward (go_back st)).current_content = entry.content ∧
    (go_forward (go_back st)).server_address = entry.server ∧
    (go_forward (go_back st)).address_bar = entry.page ∧
    (go_forward (go_back st)).current_history_index =
      st.current_history_index ∧
    (go_forward (go_back st)).history = st.history ∧
    (go_forward (go_back st)).sent = st.sent := by
  have hlen : st.current_history_index < st.history.length := by
    by_contra hc
    rw [List.getElem?_eq_none (by omega)] at hget
    exact Option.noConfusion hget
  have hprev : st.current_history_index - 1 < st.history.length := by omega
  have hback : go_back st = { st with
      current_history_index := st.current_history_index - 1,
      server_address :=
        (st.history.get ⟨st.current_history_index - 1, hprev⟩).server,
      address_bar := (st.history.get ⟨st.current_history_index - 1, hprev⟩).page,
      current_content :=
        (st.history.get ⟨st.current_history_index - 1, hprev⟩).content,
      error := none, page_loading := false,
      page_load_start_time := none } := by
    unfold go_back
    rw [if_pos hpos]
    dsimp only
    rw [List.getElem?_eq_getElem hprev]
    simp only [List.get_eq_getElem]
  rw [hback]
  unfold go_forward
  dsimp only
  have hc2 : st.current_history_index - 1 < st.history.length - 1 := by
    omega
  rw [if_pos hc2]
  have hidx : st.current_history_index - 1 + 1 =
      st.current_history_index := by omega
  rw [hidx, hget]
  exact ⟨rfl, rfl, rfl, rfl, rfl, rfl⟩

/-- C4 counterexample: in `stBackFwd` the live content `LIVE` differs
from the stored snapshot `c1`, so `go_back()` followed by `go_forward()`
does not restore `current_content` to its pre-back value. -/
theorem back_forward_counterexample :
    (go_forward (go_back stBackFwd)).current_content ≠
      stBackFwd.current_content := by decide

/-- C4 witness: the amended theorem instantiated at `stBackFwd` with the
entry `entQ` at the pre-back cursor index. -/
theorem back_forward_witness :
    (go_forward (go_back stBackFwd)).current_content = entQ.content ∧
    (go_forward (go_back stBackFwd)).sent = stBackFwd.sent := by
  have h := back_forward_restores_snapshot stBackFwd entQ (by decide)
    (by decide)
  exact ⟨h.1, h.2.2.2.2.2⟩

/-- C10: pressing back at cursor index 0 (history empty included) and
pressing forward at the last valid index leave the whole browser state
unchanged — the boundary presses are total no-ops. -/
theorem back_forward_boundary_noop (st : Browser) :
    (st.current_history_index = 0 → go_back st = st) ∧
    (st.current_history_index = st.history.length - 1 → go_forward st = st) := by
  constructor
  · intro h
    unfold go_back
    rw [if_neg (by omega)]
  · intro h
    unfold go_forward
    rw [if_neg (by omega)]

/-- C10 witness: both boundary presses on the freshly created browser. -/
theorem back_forward_boundary_noop_witness :
    go_back Browser.new = Browser.new ∧ go_forward Browser.new = Browser.new :=
  ⟨(back_forward_boundary_noop Browser.new).1 (by decide),
   (back_forward_boundary_noop Browser.new).2 (by decide)⟩

/-- C7: a `ContentReceived` payload beginning with the literal 3-byte
marker `OK` followed by a newline has the marker stripped and the
remainder becomes the displayed content; any other payload (error strings
included) becomes the displayed content verbatim; in both cases the
loading flag and its timer are cleared and the error field is reset to
none (so an `ERROR: x` payload never sets the structured error field). -/
theorem content_marker_spec (st : Browser) (rest content : List Char) :
    (handle_server_message st ("OK\n".toList ++ rest)).current_content =
      rest ∧
    (("OK\n".toList).isPrefixOf content = false →
      (handle_server_message st content).current_content = content) ∧
    (handle_server_message st content).error = none ∧
    (handle_server_message st content).page_loading = false ∧
    (handle_server_message st content).page_load_start_time = none ∧
    (handle_server_message Browser.new
        ("OK\nHello".toList)).current_content = "Hello".toList ∧
    (handle_server_message Browser.new
        ("ERROR: x".toList)).current_content = "ERROR: x".toList := by
  refine ⟨?_, ?_, rfl, rfl, rfl, by decide, by decide⟩
  · have hpre : ("OK\n".toList).isPrefixOf ("OK\n".toList ++ rest) = true :=
      List.isPrefixOf_iff_prefix.mpr (List.prefix_append _ _)
    unfold handle_server_message
    dsimp only
    rw [if_pos hpre]
    show List.drop 3 ("OK\n".toList ++ rest) = rest
    have h3 : ("OK\n".toList).length = 3 := rfl
    exact List.drop_left' h3
  · intro h
    unfold handle_server_message
    dsimp only
    rw [if_neg (by simp only [h]; decide)]

/-- C7 witness: a payload without the marker is displayed verbatim. -/
theorem content_marker_witness :
    (handle_server_message stConn ("ERROR: y".toList)).current_content =
      "ERROR: y".toList :=
  (content_marker_spec stConn [] ("ERROR: y".toList)).2.1 (by decide)

/-- `findIdx?` finds nothing when no element satisfies the predicate. -/
lemma findIdx?_eq_none_of_forall (p : Char → Bool) :
    ∀ l : List Char, (∀ c ∈ l, p c = false) → List.findIdx? p l = none := by
  intro l
  induction l with
  | nil => intro _; rfl
  | cons a t ih =>
    intro h
    rw [List.findIdx?_cons, h a (List.mem_cons_self a t),
        List.findIdx?_succ, ih (fun c hc => h c (List.mem_cons_of_mem a hc))]
    simp

/-- On `l₁ ++ a :: l₂` where nothing in `l₁` satisfies `p` and `a` does,
`findIdx?` answers exactly `l₁.length`. -/
lemma findIdx?_append_first (p : Char → Bool) (a : Char) (l₂ : List Char)
    (ha : p a = true) :
    ∀ l₁ : List Char, (∀ c ∈ l₁, p c = false) →
      List.findIdx? p (l₁ ++ a :: l₂) = some l₁.length := by
  intro l₁
  induction l₁ with
  | nil =>
    intro _
    rw [List.nil_append, List.findIdx?_cons, ha]
    simp
  | cons b t ih =>
    intro h
    rw [List.cons_append, List.findIdx?_cons, h b (List.mem_cons_self b t),
        List.findIdx?_succ, ih (fun c hc => h c (List.mem_cons_of_mem b hc))]
    simp

/-- C8: for every well-formed `nym://server/path` URL (the server part
containing no slash) `parse_nym_url` splits exactly at the first slash
after the scheme; with no trailing path it returns the server and the
empty path; and every input not starting with `nym://` yields none. -/
theorem parse_nym_url_spec (server path url : List Char) :
    ('/' ∉ server →
      parse_nym_url ("nym://".toList ++ server ++ '/' :: path) =
        some (server, path)) ∧
    ('/' ∉ server →
      parse_nym_url ("nym://".toList ++ server) = some (server, [])) ∧
    (("nym://".toList).isPrefixOf url = false →
      parse_nym_url url = none) := by
  have h6 : ("nym://".toList).length = 6 := rfl
  refine ⟨?_, ?_, ?_⟩
  · intro h
    have hpre : ("nym://".toList).isPrefixOf
        ("nym://".toList ++ server ++ '/' :: path) = true := by
      rw [List.append_assoc]
      exact List.isPrefixOf_iff_prefix.mpr (List.prefix_append _ _)
    unfold parse_nym_url
    rw [if_pos hpre]
    dsimp only
    rw [List.append_assoc, List.drop_left' h6]
    rw [findIdx?_append_first (fun c => decide (c = '/')) '/' path
        (by decide) server
        (fun c hc => decide_eq_false (fun he => h (he ▸ hc)))]
    dsimp only
    rw [List.take_left, List.append_cons server '/' path]
    have hlen2 : (server ++ ['/']).length = server.length + 1 := by simp
    rw [List.drop_left' hlen2]
  · intro h
    have hpre : ("nym://".toList).isPrefixOf
        ("nym://".toList ++ server) = true :=
      List.isPrefixOf_iff_prefix.mpr (List.prefix_append _ _)
    unfold parse_nym_url
    rw [if_pos hpre]
    dsimp only
    rw [List.drop_left' h6]
    rw [findIdx?_eq_none_of_forall (fun c => decide (c = '/')) server
        (fun c hc => decide_eq_false (fun he => h (he ▸ hc)))]
  · intro h
    unfold parse_nym_url
    rw [if_neg (by simp only [h]; decide)]

/-- C8 witness: the three clauses at `nym://srv/a/b`, `nym://srv` and
`http://x`. -/
theorem parse_nym_url_witness :
    parse_nym_url ("nym://srv/a/b".toList) =
      some ("srv".toList, "a/b".toList) ∧
    parse_nym_url ("nym://srv".toList) = some ("srv".toList, []) ∧
    parse_nym_url ("http://x".toList) = none := by
  have h := parse_nym_url_spec ("srv".toList) ("a/b".toList)
    ("http://x".toList)
  refine ⟨?_, ?_, h.2.2 (by decide)⟩
  · have heq : "nym://".toList ++ "srv".toList ++ '/' :: "a/b".toList =
        "nym://srv/a/b".toList := by decide
    rw [← heq]
    exact h.1 (by decide)
  · have heq : "nym://".toList ++ "srv".toList = "nym://srv".toList := by
      decide
    rw [← heq]
    exact h.2.1 (by decide)

/-- A successful `findSub` points at an occurrence of the pattern. -/
lemma findSub_finds (pat : List Char) :
    ∀ (s : List Char) (i : Nat), findSub pat s = some i →
      pat <+: s.drop i := by
  intro s
  induction s with
  | nil =>
    intro i h
    unfold findSub at h
    split at h
    · rename_i hp
      cases h
      exact List.isPrefixOf_iff_prefix.mp hp
    · exact Option.noConfusion h
  | cons c t ih =>
    intro i h
    unfold findSub at h
    split at h
    · rename_i hp
      cases h
      exact List.isPrefixOf_iff_prefix.mp hp
    · rw [Option.map_eq_some'] at h
      obtain ⟨j, hj, rfl⟩ := h
      exact ih j hj

/-- A prefix all of whose characters survive the `takeWhile` predicate is
still a prefix of the `takeWhile`. -/
lemma prefix_takeWhile (p : Char → Bool) :
    ∀ (pre l : List Char), pre <+: l → (∀ c ∈ pre, p c = true) →
      pre <+: l.takeWhile p := by
  intro pre
  induction pre with
  | nil => intro l _ _; exact List.nil_prefix
  | cons a pr ih =>
    intro l h hall
    obtain ⟨t, rfl⟩ := h
    rw [List.cons_append, List.takeWhile_cons,
        hall a (List.mem_cons_self a pr), if_pos rfl]
    exact List.cons_prefix_cons.mpr
      ⟨rfl, ih (pr ++ t) (List.prefix_append pr t)
        (fun c hc => hall c (List.mem_cons_of_mem a hc))⟩

/-- Every link the extraction loop cuts out carries the scheme prefix and
contains no terminator character. -/
lemma extracted_link_props (content : List Char) (start : Nat)
    (hfind : findSub ("nym://".toList) content = some start) :
    ("nym://".toList).isPrefixOf
      ((content.drop start).takeWhile (fun c => !isLinkTerminator c)) =
        true ∧
    ∀ c ∈ (content.drop start).takeWhile (fun c => !isLinkTerminator c),
      isLinkTerminator c = false := by
  constructor
  · exact List.isPrefixOf_iff_prefix.mpr
      (prefix_takeWhile _ _ _ (findSub_finds _ _ _ hfind) (by decide))
  · intro c hc
    have h := List.mem_takeWhile_imp hc
    rw [Bool.not_eq_true'] at h
    exact h

/-- The extraction loop preserves freedom from duplicates. -/
lemma extractAux_nodup :
    ∀ (fuel : Nat) (content : List Char) (links : List (List Char)),
      links.Nodup → (extractAux fuel content links).Nodup := by
  intro fuel
  induction fuel with
  | zero => intro _ links h; exact h
  | succ n ih =>
    intro content links h
    unfold extractAux
    split
    · exact h
    · dsimp only
      apply ih
      split
      · rename_i hcond
        rw [Bool.and_eq_true] at hcond
        rw [List.nodup_append]
        refine ⟨h, List.nodup_singleton _, ?_⟩
        rw [List.disjoint_singleton]
        intro hmem
        have hc2 := hcond.2
        rw [Bool.not_eq_true'] at hc2
        have htrue := List.elem_iff.mpr hmem
        have hfalse : List.elem _ links = false := hc2
        rw [htrue] at hfalse
        exact Bool.noConfusion hfalse
      · exact h

/-- Every element the extraction loop returns was already accumulated or
is a well-formed link. -/
lemma extractAux_mem :
    ∀ (fuel : Nat) (content : List Char) (links : List (List Char))
      (l : List Char), l ∈ extractAux fuel content links →
      l ∈ links ∨
      (("nym://".toList).isPrefixOf l = true ∧
       ∀ c ∈ l, isLinkTerminator c = false) := by
  intro fuel
  induction fuel with
  | zero => intro _ links l h; exact Or.inl h
  | succ n ih =>
    intro content links l h
    unfold extractAux at h
    split at h
    · exact Or.inl h
    · rename_i start hfind
      dsimp only at h
      rcases ih _ _ l h with hl | hprop
      · split at hl
        · rw [List.mem_append] at hl
          rcases hl with hl | hl
          · exact Or.inl hl
          · rw [List.mem_singleton] at hl
            subst hl
            exact Or.inr (extracted_link_props content start hfind)
        · exact Or.inl hl
      · exact Or.inr hprop

/-- C9: `extract_nym_links` returns a duplicate-free finite sequence in
which every element starts with the `nym://` prefix and contains no
terminator (whitespace / closing-bracket / quote) character — each match
runs from a `nym://` occurrence to the first terminator — and on
`nym://a nym://b nym://a` it returns exactly `[nym://a, nym://b]`,
deduplicated in first-seen order. -/
theorem extract_links_spec (content l : List Char) (c : Char) :
    (extract_nym_links content).Nodup ∧
    (l ∈ extract_nym_links content →
      ("nym://".toList).isPrefixOf l = true ∧
      (c ∈ l → isLinkTerminator c = false)) ∧
    extract_nym_links ("nym://a nym://b nym://a".toList) =
      ["nym://a".toList, "nym://b".toList] := by
  refine ⟨extractAux_nodup _ _ _ List.nodup_nil, ?_, by decide⟩
  intro h
  rcases extractAux_mem _ _ _ _ h with hl | ⟨h1, h2⟩
  · exact absurd hl (List.not_mem_nil _)
  · exact ⟨h1, fun hc => h2 c hc⟩

/-- C9 witness: the spec applied to the concrete text, the extracted link
`nym://a` and its first character. -/
theorem extract_links_witness :
    (extract_nym_links ("nym://a nym://b nym://a".toList)).Nodup ∧
    ("nym://".toList).isPrefixOf ("nym://a".toList) = true ∧
    isLinkTerminator 'n' = false := by
  have h := extract_links_spec ("nym://a nym://b nym://a".toList)
    ("nym://a".toList) 'n'
  exact ⟨h.1, (h.2.1 (by decide)).1, (h.2.1 (by decide)).2 (by decide)⟩

end NymView
